import Mathlib

/-!
# Zyra Browser — verification of the renderer's Tab & View Lifecycle Manager
  and Address Formatter

Shallow embedding of `src/renderer/renderer.js`.  The repository ships two
renderer variants in that file: a single-view renderer (lines 1-347) and the
multi-tab renderer (lines 348-758, the `TabManager` object).  Both are
embedded below; the multi-tab variant keeps the source names at top level,
the single-view variant lives in namespace `SingleView`.

DOM state that the renderer mutates (tab buttons, webview elements, the
address bar input, the loading bar, navigation buttons) is modelled as
explicit fields of `BrowserState`.  `document.getElementById(...)` on an id
that is absent yields `null` in JS, and a subsequent member access throws a
`TypeError`; operations that can throw are therefore embedded as
`Except BrowserState BrowserState`, where the `error` payload is the renderer
state at the moment the exception is raised (all mutations performed before
the throwing statement are visible in it, matching JS semantics).

JS strings handed to the Address Formatter are modelled as lists of UTF-16
code units (`List Nat`), so that `encodeURIComponent`'s URIError on lone
surrogates is representable.
-/

/-- One entry of `state.tabs`: `{ id, url, title, isLoading }`
(renderer.js line 404). -/
structure Tab where
  id : String
  url : String
  title : String
  isLoading : Bool
  deriving Repr, DecidableEq

/-- The observable state of one `<webview>` element: its current address
(`getURL()`), its history availability (`canGoBack()` / `canGoForward()`),
and whether its `style.display` shows it. -/
structure Webview where
  url : String
  canGoBackB : Bool
  canGoForwardB : Bool
  displayed : Bool
  deriving Repr, DecidableEq

/-- The renderer-process state of the multi-tab variant: the `state` object
(lines 356-363) plus the DOM elements the TabManager reads and writes.
`tabButtons` pairs each tab-button element id with its `active` class flag;
`webviews` pairs each webview element id with its observable state; both are
keyed by the owning tab id (the DOM ids are `btn-`/`view-` + tab id). -/
structure BrowserState where
  tabs : List Tab
  activeTabId : Option String
  isSplitView : Bool
  splitTabId : Option String
  tabButtons : List (String × Bool)
  webviews : List (String × Webview)
  urlInputValue : String
  urlInputFocused : Bool
  loadingBarLoading : Bool
  loadingBarComplete : Bool
  btnBackDisabled : Bool
  btnForwardDisabled : Bool
  deriving Repr, DecidableEq

/-- `document.getElementById` over a keyed element list: first entry with the
requested key, if any. -/
def jsLookup {α : Type} : List (String × α) → String → Option α
  | [], _ => none
  | b :: rest, x => if b.1 == x then some b.2 else jsLookup rest x

/-- `TabManager.getActiveWebview` (lines 498-500):
`document.getElementById('view-' + state.activeTabId)`; when `activeTabId`
is `null` the constructed id `view-null` matches no element. -/
def getActiveWebview (s : BrowserState) : Option Webview :=
  match s.activeTabId with
  | some tid => jsLookup s.webviews tid
  | none => none

/-- `updateNavigationButtons` (lines 635-641): refresh the disabled state of
the back/forward buttons from the active webview, if one exists. -/
def updateNavigationButtons (s : BrowserState) : BrowserState :=
  match getActiveWebview s with
  | some wv => { s with btnBackDisabled := !wv.canGoBackB,
                        btnForwardDisabled := !wv.canGoForwardB }
  | none => s

/-- `TabManager.switchTab` (lines 451-474).  Statement order follows the
source: set `activeTabId`, strip the `active` class from every tab button,
then `document.getElementById('btn-' + tabId).classList.add('active')` —
which throws a TypeError when no such button exists (dead tab id); the
`error` payload is the state at that point.  Otherwise: set every webview's
visibility, refresh the address bar and navigation buttons from the active
webview (unconditionally — no focus check in this variant), and re-show the
split partner when split view is engaged. -/
def switchTab (s : BrowserState) (tabId : String) : Except BrowserState BrowserState :=
  let s1 := { s with activeTabId := some tabId }
  let s2 := { s1 with tabButtons := s1.tabButtons.map (fun (b : String × Bool) => (b.1, false)) }
  if s2.tabButtons.any (fun b => b.1 == tabId) then
    let s3 := { s2 with tabButtons := s2.tabButtons.map (fun (b : String × Bool) => (b.1, b.1 == tabId)) }
    let showOnly := fun (v : String × Webview) => (v.1, { v.2 with displayed := v.1 == tabId })
    let s4 := { s3 with webviews := s3.webviews.map showOnly }
    let s5 := match jsLookup s4.webviews tabId with
      | some wv => updateNavigationButtons { s4 with urlInputValue := wv.url }
      | none => s4
    let s6 := if s5.isSplitView then
        match s5.splitTabId with
        | some sid =>
            if sid ≠ "" then
              let showSplit := fun (v : String × Webview) =>
                if v.1 == sid then (v.1, { v.2 with displayed := true }) else v
              { s5 with webviews := s5.webviews.map showSplit }
            else s5
        | none => s5
      else s5
    Except.ok s6
  else Except.error s2

/-- `Array.prototype.findIndex`: index of the first match, `-1` if none. -/
def jsFindIndex {α : Type} (p : α → Bool) : List α → Int
  | [] => -1
  | x :: xs =>
    if p x then 0
    else if jsFindIndex p xs < 0 then -1 else jsFindIndex p xs + 1

/-- Remove the element at position `n` (no-op when `n` is out of range). -/
def removeAtNat {α : Type} : List α → Nat → List α
  | [], _ => []
  | _ :: xs, 0 => xs
  | x :: xs, n + 1 => x :: removeAtNat xs n

/-- `Array.prototype.splice(start, 1)`: a negative `start` counts from the
end (clamped at 0), so `splice(-1, 1)` deletes the LAST element. -/
def jsSpliceRemoveOne {α : Type} (l : List α) (start : Int) : List α :=
  if start < 0 then removeAtNat l ((l.length + start : Int)).toNat
  else removeAtNat l start.toNat

/-- `state.tabs[i]` for a JS (possibly negative) index. -/
def jsGetTab (l : List Tab) (i : Int) : Option Tab :=
  if i < 0 then none else l.get? i.toNat

/-- `TabManager.closeTab` (lines 479-493).  Returns immediately when at most
one tab remains.  Otherwise: `findIndex` (−1 when the id is dead),
`splice(index, 1)` (which for −1 removes the LAST tab), then removal of the
paired button and webview elements — `document.getElementById(...).remove()`
throws when the element is absent — and finally, if the closed tab was
active, `tabs[index] || tabs[index - 1]` picks the neighbour which is
activated via `switchTab`. -/
def closeTab (s : BrowserState) (tabId : String) : Except BrowserState BrowserState :=
  if s.tabs.length ≤ 1 then Except.ok s
  else
    let idx : Int := jsFindIndex (fun t => t.id == tabId) s.tabs
    let s1 := { s with tabs := jsSpliceRemoveOne s.tabs idx }
    if s1.tabButtons.any (fun b => b.1 == tabId) then
      let s2 := { s1 with tabButtons := s1.tabButtons.filter (fun b => b.1 != tabId) }
      if s2.webviews.any (fun v => v.1 == tabId) then
        let s3 := { s2 with webviews := s2.webviews.filter (fun v => v.1 != tabId) }
        if s3.activeTabId = some tabId then
          match (jsGetTab s3.tabs idx).orElse (fun _ => jsGetTab s3.tabs (idx - 1)) with
          | some nt => switchTab s3 nt.id
          | none => Except.error s3
        else Except.ok s3
      else Except.error s2
    else Except.error s1

/-- `TabManager.createTab` (lines 402-446).  The id is
`'tab-' + Date.now()`; the wall-clock millisecond reading is passed in as
`now`.  Appends the tab record, its button element and its webview element,
then activates it via `switchTab` when requested (the freshly appended
button makes that call total; both branches are kept for totality).
Returns the updated state and the returned tab id. -/
def createTab (s : BrowserState) (now : Nat) (url : String) (activate : Bool) :
    BrowserState × String :=
  let tabId := "tab-" ++ Nat.repr now
  let tabData : Tab := { id := tabId, url := url, title := "New Tab", isLoading := true }
  let s1 := { s with tabs := s.tabs ++ [tabData] }
  let s2 := { s1 with tabButtons := s1.tabButtons ++ [(tabId, false)] }
  let newView : String × Webview :=
    (tabId, { url := url, canGoBackB := false, canGoForwardB := false, displayed := true })
  let s3 := { s2 with webviews := s2.webviews ++ [newView] }
  if activate then
    match switchTab s3 tabId with
    | Except.ok s4 => (s4, tabId)
    | Except.error s4 => (s4, tabId)
  else (s3, tabId)

/-- `TabManager.updateLoading` (lines 502-514), the handler for
`did-start-loading` / `did-stop-loading`: toggles the global loading bar and
refreshes navigation buttons, but only when the event's tab is the active
one.  (The deferred removal of the `complete` class after 600ms is a timer
effect outside this step.)  Note: it never writes the tab record. -/
def updateLoading (s : BrowserState) (tabId : String) (isldg : Bool) : BrowserState :=
  if s.activeTabId = some tabId then
    let s1 :=
      if isldg then { s with loadingBarLoading := true, loadingBarComplete := false }
      else { s with loadingBarLoading := false, loadingBarComplete := true }
    updateNavigationButtons s1
  else s

/-- `TabManager.updateUrl` (lines 522-527), the handler for `did-navigate` /
`did-navigate-in-page`: writes the address bar (no focus check) and
refreshes navigation buttons when the event's tab is active.  Note: it never
writes the tab record. -/
def updateUrl (s : BrowserState) (tabId : String) (url : String) : BrowserState :=
  if s.activeTabId = some tabId then
    updateNavigationButtons { s with urlInputValue := url }
  else s

/-- `goBack` (lines 625-628): invoke the active webview's history navigation
only when it exists and `canGoBack()` holds.  The returned flag records
whether `webview.goBack()` was invoked; the renderer state itself is not
mutated by the call. -/
def goBack (s : BrowserState) : BrowserState × Bool :=
  match getActiveWebview s with
  | some wv => if wv.canGoBackB then (s, true) else (s, false)
  | none => (s, false)

/-- `goForward` (lines 630-633), symmetric to `goBack`. -/
def goForward (s : BrowserState) : BrowserState × Bool :=
  match getActiveWebview s with
  | some wv => if wv.canGoForwardB then (s, true) else (s, false)
  | none => (s, false)

/-- Renderer state as of `DOMContentLoaded`, before the initial
`TabManager.createTab()` call. -/
def initState : BrowserState :=
  { tabs := [], activeTabId := none, isSplitView := false, splitTabId := none,
    tabButtons := [], webviews := [], urlInputValue := "",
    urlInputFocused := false, loadingBarLoading := false,
    loadingBarComplete := false, btnBackDisabled := false,
    btnForwardDisabled := false }

/-! ## Address Formatter

JS strings are lists of UTF-16 code units.  `encodeURIComponent` follows the
ECMA-262 Encode abstract operation: unreserved code points pass through,
everything else is percent-encoded as UTF-8, and a lone surrogate raises a
URIError (modelled as `Except.error`). -/

/-- UTF-16 code units of a Lean string (scalar values above U+FFFF become a
surrogate pair). -/
def utf16Units (c : Nat) : List Nat :=
  if c < 0x10000 then [c]
  else [0xD800 + (c - 0x10000) / 0x400, 0xDC00 + (c - 0x10000) % 0x400]

/-- A JS string literal as its UTF-16 code-unit list. -/
def jstr (s : String) : List Nat :=
  (s.toList.map (fun c => utf16Units c.toNat)).flatten

/-- The WhiteSpace ∪ LineTerminator set used by `String.prototype.trim`. -/
def isJsWhitespace (c : Nat) : Bool :=
  c == 0x9 || c == 0xA || c == 0xB || c == 0xC || c == 0xD || c == 0x20 ||
  c == 0xA0 || c == 0x1680 ||
  (0x2000 ≤ c && c ≤ 0x200A) ||
  c == 0x2028 || c == 0x2029 || c == 0x202F || c == 0x205F ||
  c == 0x3000 || c == 0xFEFF

/-- Drop trailing code units satisfying `isJsWhitespace`. -/
def trimEnd : List Nat → List Nat
  | [] => []
  | c :: rest =>
    let r := trimEnd rest
    if r.isEmpty && isJsWhitespace c then [] else c :: r

/-- `String.prototype.trim`. -/
def jsTrim (s : List Nat) : List Nat :=
  trimEnd (s.dropWhile isJsWhitespace)

def isLeadSurrogate (c : Nat) : Bool := 0xD800 ≤ c && c ≤ 0xDBFF

def isTrailSurrogate (c : Nat) : Bool := 0xDC00 ≤ c && c ≤ 0xDFFF

/-- The code-unit sequence is valid UTF-16: no lone surrogates. -/
def wellFormedUtf16 : List Nat → Bool
  | [] => true
  | c :: rest =>
    if isTrailSurrogate c then false
    else if !(isLeadSurrogate c) then wellFormedUtf16 rest
    else match rest with
      | [] => false
      | c2 :: rest2 => isTrailSurrogate c2 && wellFormedUtf16 rest2

/-- uriUnescaped of ECMA-262: ALPHA / DIGIT / `- _ . ! ~ * ' ( )`. -/
def isUriUnescaped (c : Nat) : Bool :=
  (65 ≤ c && c ≤ 90) || (97 ≤ c && c ≤ 122) || (48 ≤ c && c ≤ 57) ||
  c == 45 || c == 95 || c == 46 || c == 33 || c == 126 || c == 42 ||
  c == 39 || c == 40 || c == 41

/-- UTF-8 octets of a Unicode scalar value. -/
def utf8Encode (v : Nat) : List Nat :=
  if v < 0x80 then [v]
  else if v < 0x800 then [0xC0 + v / 0x40, 0x80 + v % 0x40]
  else if v < 0x10000 then
    [0xE0 + v / 0x1000, 0x80 + (v / 0x40) % 0x40, 0x80 + v % 0x40]
  else
    [0xF0 + v / 0x40000, 0x80 + (v / 0x1000) % 0x40,
     0x80 + (v / 0x40) % 0x40, 0x80 + v % 0x40]

/-- One upper-case hex digit (as a code unit). -/
def hexDigit (n : Nat) : Nat := if n < 10 then 48 + n else 55 + n

/-- `%XX` escape of one octet. -/
def percentEscape (b : Nat) : List Nat := [37, hexDigit (b / 16), hexDigit (b % 16)]

/-- Percent-escaped UTF-8 encoding of one scalar value. -/
def escapeScalar (v : Nat) : List Nat :=
  ((utf8Encode v).map percentEscape).flatten

/-- `encodeURIComponent`.  Raises URIError (`Except.error`) on a lone
surrogate, exactly as the ECMA-262 Encode operation does. -/
def encodeURIComponent : List Nat → Except Unit (List Nat)
  | [] => Except.ok []
  | c :: rest =>
    if isUriUnescaped c then
      match encodeURIComponent rest with
      | Except.ok t => Except.ok (c :: t)
      | Except.error e => Except.error e
    else if isTrailSurrogate c then Except.error ()
    else if !(isLeadSurrogate c) then
      match encodeURIComponent rest with
      | Except.ok t => Except.ok (escapeScalar c ++ t)
      | Except.error e => Except.error e
    else match rest with
      | [] => Except.error ()
      | c2 :: rest2 =>
        if isTrailSurrogate c2 then
          match encodeURIComponent rest2 with
          | Except.ok t =>
              Except.ok (escapeScalar (0x10000 + (c - 0xD800) * 0x400 + (c2 - 0xDC00)) ++ t)
          | Except.error e => Except.error e
        else Except.error ()

/-- The fixed search-engine query template shared by both variants:
`'https://www.google.com/search?q='`. -/
def searchQueryBase : List Nat := jstr "https://www.google.com/search?q="

/-- Case-insensitive ASCII lowering of one code unit (the `i` flag of
`/^https?:\/\//i`; without the `u` flag no non-ASCII folding applies to
these pattern characters). -/
def lowerAscii (c : Nat) : Nat := if 65 ≤ c && c ≤ 90 then c + 32 else c

/-- `/^https?:\/\//i.test(url)`. -/
def startsWithHttp (s : List Nat) : Bool :=
  ((s.take 7).map lowerAscii == jstr "http://") ||
  ((s.take 8).map lowerAscii == jstr "https://")

/-- `formatUrl` of the multi-tab variant (lines 644-650).  Note the source
order: the emptiness test (`if (!input)`) runs BEFORE `input.trim()`, and
the dot/space test decides the search branch before the scheme test. -/
def formatUrl (input : List Nat) : Except Unit (List Nat) :=
  if input.isEmpty then Except.ok (jstr "home.html")
  else
    let url := jsTrim input
    if url.contains 32 || !(url.contains 46) then
      match encodeURIComponent url with
      | Except.ok e => Except.ok (searchQueryBase ++ e)
      | Except.error e => Except.error e
    else if !(startsWithHttp url) then Except.ok (jstr "https://" ++ url)
    else Except.ok url

namespace SingleView

/-- `formatUrl` of the single-view variant (lines 74-95).  It trims FIRST;
an empty result yields `elements.webview.src || 'https://www.google.com'`
(the current address, or the default when the webview has no src).
`isValidUrl` wraps the host's `new URL` parser (an external platform
primitive), so it is passed in as an oracle `validUrl`; the source accepts
exactly the inputs that parse with protocol `http:` or `https:`. -/
def formatUrl (validUrl : List Nat → Bool) (webviewSrc : List Nat)
    (input0 : List Nat) : Except Unit (List Nat) :=
  let input := jsTrim input0
  if input.isEmpty then
    Except.ok (if webviewSrc.isEmpty then jstr "https://www.google.com" else webviewSrc)
  else if validUrl input then Except.ok input
  else if input.contains 46 && !(input.contains 32) then
    Except.ok (jstr "https://" ++ input)
  else
    match encodeURIComponent input with
    | Except.ok e => Except.ok (searchQueryBase ++ e)
    | Except.error e => Except.error e

end SingleView

/-! ## Concrete example states -/

/-- A freshly created webview showing the home page. -/
def wvHome : Webview :=
  { url := "home.html", canGoBackB := false, canGoForwardB := false, displayed := true }

def exTabA : Tab := { id := "tab-1", url := "home.html", title := "New Tab", isLoading := true }

def exTabB : Tab := { id := "tab-2", url := "home.html", title := "New Tab", isLoading := true }

/-- A two-tab session with `tab-1` active. -/
def exS2 : BrowserState :=
  { tabs := [exTabA, exTabB], activeTabId := some "tab-1", isSplitView := false,
    splitTabId := none, tabButtons := [("tab-1", true), ("tab-2", false)],
    webviews := [("tab-1", wvHome), ("tab-2", wvHome)], urlInputValue := "home.html",
    urlInputFocused := false, loadingBarLoading := false, loadingBarComplete := false,
    btnBackDisabled := false, btnForwardDisabled := false }

/-- A session whose single tab is `tab-1`. -/
def exS1 : BrowserState :=
  { tabs := [exTabA], activeTabId := some "tab-1", isSplitView := false,
    splitTabId := none, tabButtons := [("tab-1", true)],
    webviews := [("tab-1", wvHome)], urlInputValue := "home.html",
    urlInputFocused := false, loadingBarLoading := false, loadingBarComplete := false,
    btnBackDisabled := false, btnForwardDisabled := false }

/-! ## Claim theorems -/

/-- Claim C1 (code bug): `createTab` derives the tab id from `Date.now()`
alone, so two calls inside the same millisecond (e.g. a burst of
`new-window` events in one scheduling tick) return the SAME id.  Evaluated
at the failing input: two back-to-back calls at wall-clock reading 12345
both return `tab-12345`. -/
theorem createTab_same_tick_id_collision :
    (createTab initState 12345 "home.html" true).2 = "tab-12345" ∧
    (createTab (createTab initState 12345 "home.html" true).1
        12345 "https://x.y/" true).2 = "tab-12345" :=
  ⟨rfl, rfl⟩

/-- Claim C2 (code bug): with two live tabs, operating on the dead id
`tab-404` is NOT an absorbed no-op.  `switchTab` first assigns
`state.activeTabId = 'tab-404'` and strips every button's active class, then
throws a TypeError on `getElementById('btn-tab-404').classList`; `closeTab`
computes `findIndex = -1`, so `splice(-1, 1)` silently deletes the LAST tab
record, then throws on `getElementById('btn-tab-404').remove()`.  The
`Except.error` payloads exhibit the states at the throw site. -/
theorem switchTab_closeTab_dead_id_throw :
    switchTab exS2 "tab-404" =
      Except.error { exS2 with activeTabId := some "tab-404",
                               tabButtons := [("tab-1", false), ("tab-2", false)] } ∧
    closeTab exS2 "tab-404" = Except.error { exS2 with tabs := [exTabA] } :=
  ⟨rfl, rfl⟩

/-- Claim C3: when exactly one tab remains, `closeTab` returns immediately
(`if (state.tabs.length <= 1) return`), leaving the whole renderer state —
in particular the tab sequence — unchanged, for every requested id. -/
theorem closeTab_last_tab_noop (s : BrowserState) (tid : String)
    (h : s.tabs.length = 1) : closeTab s tid = Except.ok s := by
  unfold closeTab
  rw [if_pos (by omega)]

/-- Witness for `closeTab_last_tab_noop` at the singleton session `exS1`. -/
theorem closeTab_last_tab_noop_witness :
    exS1.tabs.length = 1 ∧ closeTab exS1 "tab-1" = Except.ok exS1 :=
  ⟨rfl, closeTab_last_tab_noop exS1 "tab-1" rfl⟩

/-- Claim C5, counterexample: the event handlers do NOT keep the Tab record
in sync.  After the active tab's `did-stop-loading` event the record still
says `isLoading = true`, and after a `did-navigate` to a new address the
record still carries the creation-time url. -/
theorem tab_record_fields_stale :
    (updateLoading exS2 "tab-1" false).tabs.map Tab.isLoading = [true, true] ∧
    (updateUrl exS2 "tab-1" "https://n.ew/").tabs.map Tab.url =
      ["home.html", "home.html"] :=
  ⟨rfl, rfl⟩

/-- Claim C5, amended: `TabManager.updateLoading` and `TabManager.updateUrl`
never write the Tab records at all — they only drive the shared UI (loading
bar, address bar, navigation buttons), and only when the event's tab is
active; the record's `isLoading`/`url` fields keep their creation-time
values. -/
theorem handlers_never_update_tab_record (s : BrowserState) (tid : String)
    (b : Bool) (u : String) :
    (updateLoading s tid b).tabs = s.tabs ∧ (updateUrl s tid u).tabs = s.tabs := by
  constructor <;>
    · simp only [updateLoading, updateUrl, updateNavigationButtons]
      repeat' split
      all_goals rfl

/-- Claim C10: `goBack`/`goForward` call the view's history navigation
exactly when an active webview exists and reports `canGoBack()`
(resp. `canGoForward()`); in every case the renderer state is untouched. -/
theorem goBack_goForward_guarded (s : BrowserState) :
    (goBack s).1 = s ∧ (goForward s).1 = s ∧
    ((goBack s).2 = true ↔
      ∃ wv, getActiveWebview s = some wv ∧ wv.canGoBackB = true) ∧
    ((goForward s).2 = true ↔
      ∃ wv, getActiveWebview s = some wv ∧ wv.canGoForwardB = true) := by
  unfold goBack goForward
  cases h : getActiveWebview s with
  | none => simp
  | some wv => by_cases hb : wv.canGoBackB <;> by_cases hf : wv.canGoForwardB <;> simp [hb, hf]

/-! ## Helper lemmas about `switchTab` -/

theorem jsLookup_map_snd {α β : Type} (f : String → α → β) (l : List (String × α))
    (x : String) :
    jsLookup (l.map (fun v => (v.1, f v.1 v.2))) x = (jsLookup l x).map (f x) := by
  induction l with
  | nil => rfl
  | cons b rest ih =>
    simp only [List.map_cons, jsLookup]
    by_cases h : (b.1 == x) = true
    · have hx : b.1 = x := eq_of_beq h
      rw [if_pos h, if_pos h, hx]
      rfl
    · rw [if_neg h, if_neg h]
      exact ih

/-- When a button for `tid` exists, `switchTab` succeeds, activates `tid`,
leaves the tab sequence alone, and overwrites the address bar with the
paired webview's address whenever that webview exists (regardless of the
address bar's focus state, which `switchTab` never consults). -/
theorem switchTab_ok_shape (s : BrowserState) (tid : String)
    (hbtn : s.tabButtons.any (fun b => b.1 == tid) = true) :
    ∃ s', switchTab s tid = Except.ok s' ∧ s'.activeTabId = some tid ∧
      s'.tabs = s.tabs ∧
      s'.urlInputValue = ((jsLookup s.webviews tid).map Webview.url).getD s.urlInputValue := by
  simp only [switchTab]
  have hcond : (s.tabButtons.map (fun (b : String × Bool) => (b.1, false))).any
      (fun b => b.1 == tid) = true := by
    rw [List.any_map]
    exact hbtn
  rw [if_pos hcond]
  have hmap := jsLookup_map_snd
    (fun k (w : Webview) => { w with displayed := k == tid }) s.webviews tid
  simp only [getActiveWebview, updateNavigationButtons, hmap]
  cases hlk : jsLookup s.webviews tid with
  | none =>
    simp only [Option.map_none', Option.getD_none]
    refine ⟨_, rfl, ?_, ?_, ?_⟩ <;> (repeat' split) <;> rfl
  | some wv =>
    simp only [Option.map_some', Option.getD_some]
    refine ⟨_, rfl, ?_, ?_, ?_⟩ <;> (repeat' split) <;> rfl

/-- The second tab's webview after it has navigated somewhere. -/
def wvB9 : Webview :=
  { url := "https://b.example/", canGoBackB := true, canGoForwardB := false,
    displayed := false }

/-- Two tabs, the address bar focused and holding an unsubmitted edit. -/
def exS9 : BrowserState :=
  { exS2 with urlInputFocused := true, urlInputValue := "draft query",
              webviews := [("tab-1", wvHome), ("tab-2", wvB9)] }

/-- Claim C9, counterexample: `TabManager.switchTab` performs
`elements.urlInput.value = activeWebview.getURL()` with no focus check, so
switching to the live tab `tab-2` overwrites the focused address bar's
pending edit `draft query` with the view's address. -/
theorem switchTab_overwrites_focused_urlbar :
    exS9.urlInputFocused = true ∧ exS9.urlInputValue = "draft query" ∧
    (switchTab exS9 "tab-2").map (fun s => s.urlInputValue) =
      Except.ok "https://b.example/" :=
  ⟨rfl, rfl, rfl⟩

/-- Claim C9, amended: for every live tab id paired with a webview,
`switchTab` refreshes the address bar with that view's current address
UNCONDITIONALLY — the multi-tab variant has no analogue of the single-view
`updateUrlBar` focus guard, so a focused, unsubmitted edit is overwritten
too. -/
theorem switchTab_always_refreshes_urlbar (s : BrowserState) (tid : String)
    (wv : Webview)
    (hbtn : s.tabButtons.any (fun b => b.1 == tid) = true)
    (hwv : jsLookup s.webviews tid = some wv) :
    ∃ s', switchTab s tid = Except.ok s' ∧ s'.urlInputValue = wv.url := by
  obtain ⟨s', hok, -, -, hurl⟩ := switchTab_ok_shape s tid hbtn
  exact ⟨s', hok, by rw [hurl, hwv]; rfl⟩

/-- Witness for `switchTab_always_refreshes_urlbar` at the focused-edit
state `exS9`. -/
theorem switchTab_always_refreshes_urlbar_witness :
    (exS9.tabButtons.any (fun b => b.1 == "tab-2") = true ∧
      jsLookup exS9.webviews "tab-2" = some wvB9) ∧
    ∃ s', switchTab exS9 "tab-2" = Except.ok s' ∧ s'.urlInputValue = wvB9.url :=
  ⟨⟨rfl, rfl⟩, switchTab_always_refreshes_urlbar exS9 "tab-2" wvB9 rfl rfl⟩

/-! ## Helper lemmas for `closeTab` -/

theorem jsFindIndex_append {α : Type} (p : α → Bool) (pre : List α) (t : α)
    (post : List α) (hpre : ∀ x ∈ pre, p x = false) (hp : p t = true) :
    jsFindIndex p (pre ++ t :: post) = (pre.length : Int) := by
  induction pre with
  | nil => simp [jsFindIndex, hp]
  | cons a pre ih =>
    have ha : p a = false := hpre a (List.mem_cons_self a pre)
    have ih' := ih (fun x hx => hpre x (List.mem_cons_of_mem a hx))
    simp only [List.cons_append, jsFindIndex, ha, Bool.false_eq_true, if_false,
      List.append_eq, ih', List.length_cons]
    rw [if_neg (by omega)]
    push_cast
    ring

theorem removeAtNat_append {α : Type} (pre : List α) (t : α) (post : List α) :
    removeAtNat (pre ++ t :: post) pre.length = pre ++ post := by
  induction pre with
  | nil => rfl
  | cons a pre ih => simpa [removeAtNat] using ih

theorem jsSplice_natCast {α : Type} (l : List α) (k : Nat) :
    jsSpliceRemoveOne l (k : Int) = removeAtNat l k := by
  unfold jsSpliceRemoveOne
  rw [if_neg (by omega)]
  norm_num

theorem get?_append_length {α : Type} (pre post : List α) :
    (pre ++ post).get? pre.length = post.head? := by
  induction pre with
  | nil => cases post <;> rfl
  | cons a pre ih => simpa using ih

theorem get?_length_sub_one {α : Type} (l : List α) (h : l ≠ []) :
    l.get? (l.length - 1) = l.getLast? := by
  induction l with
  | nil => exact absurd rfl h
  | cons a l ih =>
    cases l with
    | nil => rfl
    | cons b l' =>
      have ih' := ih (by simp)
      simp only [List.length_cons, Nat.add_sub_cancel] at ih' ⊢
      rw [List.getLast?_cons_cons]
      rw [← ih']
      rfl

theorem not_mem_of_nodup_middle {α : Type} {l1 l2 : List α} {a : α}
    (h : (l1 ++ a :: l2).Nodup) : a ∉ l1 ∧ a ∉ l2 := by
  rw [List.nodup_append] at h
  obtain ⟨-, h2, hd⟩ := h
  refine ⟨fun ha => hd ha (List.mem_cons_self a l2), ?_⟩
  rw [List.nodup_cons] at h2
  exact h2.1

theorem any_fst_beq_of_mem {α : Type} {l : List (String × α)} {x : String}
    (h : x ∈ l.map Prod.fst) : l.any (fun b => b.1 == x) = true := by
  rw [List.any_eq_true]
  obtain ⟨b, hb, hbx⟩ := List.mem_map.mp h
  exact ⟨b, hb, by simp [hbx]⟩

theorem map_fst_filter_ne {α : Type} (l : List (String × α)) (x : String) :
    (l.filter (fun b => b.1 != x)).map Prod.fst =
      (l.map Prod.fst).filter (fun y => y != x) := by
  induction l with
  | nil => rfl
  | cons b rest ih =>
    by_cases h : (b.1 != x) = true
    · simp [List.filter_cons, h, ih]
    · simp [List.filter_cons, h, ih]

/-- Well-formedness of a session: every tab record is paired with exactly
one button and one webview element carrying its id, and tab ids are
distinct (the invariant `createTab`/`closeTab` maintain in the DOM). -/
def WF (s : BrowserState) : Prop :=
  s.tabButtons.map Prod.fst = s.tabs.map Tab.id ∧
  s.webviews.map Prod.fst = s.tabs.map Tab.id ∧
  (s.tabs.map Tab.id).Nodup

instance (s : BrowserState) : Decidable (WF s) := by
  unfold WF
  infer_instance

theorem some_orElse' {α : Type} (a : α) (f : Unit → Option α) :
    (some a).orElse f = some a := rfl

theorem none_orElse' {α : Type} (f : Unit → Option α) :
    (none : Option α).orElse f = f () := rfl

/-- Claim C4: in a well-formed session with at least two tabs, closing the
ACTIVE tab removes exactly that tab and then activates its neighbour: the
tab that now occupies the closed tab's former index (the head of `post`),
or, when the closed tab was last, the tab at the preceding index (the last
element of `pre`). -/
theorem closeTab_active_selects_neighbor (s : BrowserState) (tid : String)
    (pre post : List Tab) (t : Tab)
    (hwf : WF s)
    (hdecomp : s.tabs = pre ++ t :: post)
    (htid : t.id = tid)
    (hact : s.activeTabId = some tid)
    (hlen : 2 ≤ s.tabs.length) :
    ∃ s', closeTab s tid = Except.ok s' ∧
      s'.tabs = pre ++ post ∧
      s'.activeTabId = (post.head?.orElse (fun _ => pre.getLast?)).map Tab.id := by
  obtain ⟨hbtn, hwvs, hnd⟩ := hwf
  have hids : s.tabs.map Tab.id = pre.map Tab.id ++ tid :: post.map Tab.id := by
    rw [hdecomp]
    simp [← htid]
  have hnd' : (pre.map Tab.id ++ tid :: post.map Tab.id).Nodup := by
    rw [← hids]
    exact hnd
  obtain ⟨hnpre, hnpost⟩ := not_mem_of_nodup_middle hnd'
  have htidmem : tid ∈ s.tabs.map Tab.id := by
    rw [hids]
    exact List.mem_append_right _ (List.mem_cons_self _ _)
  have hfind : jsFindIndex (fun t' => t'.id == tid) s.tabs = (pre.length : Int) := by
    rw [hdecomp]
    apply jsFindIndex_append
    · intro x hx
      have hxm : x.id ∈ pre.map Tab.id := List.mem_map_of_mem Tab.id hx
      rw [beq_eq_false_iff_ne]
      intro he
      exact hnpre (he ▸ hxm)
    · rw [htid]
      exact beq_self_eq_true tid
  have hsplice : jsSpliceRemoveOne s.tabs ((pre.length : Nat) : Int) = pre ++ post := by
    rw [jsSplice_natCast, hdecomp, removeAtNat_append]
  have hbtnany : s.tabButtons.any (fun b => b.1 == tid) = true :=
    any_fst_beq_of_mem (by rw [hbtn]; exact htidmem)
  have hwvany : s.webviews.any (fun v => v.1 == tid) = true :=
    any_fst_beq_of_mem (by rw [hwvs]; exact htidmem)
  simp only [closeTab]
  rw [if_neg (by omega), hfind, hsplice, if_pos hbtnany, if_pos hwvany, hact,
    if_pos rfl]
  cases post with
  | cons p rest =>
    have h1 : jsGetTab (pre ++ p :: rest) (pre.length : Int) = some p := by
      unfold jsGetTab
      rw [if_neg (by omega), show ((pre.length : Int)).toNat = pre.length by omega,
        get?_append_length]
      rfl
    rw [h1]
    have hpne : p.id ≠ tid := by
      intro he
      exact hnpost (he ▸ List.mem_map_of_mem Tab.id (List.mem_cons_self p rest))
    have hpidmem : p.id ∈ (s.tabButtons.filter (fun b => b.1 != tid)).map Prod.fst := by
      rw [map_fst_filter_ne, hbtn, List.mem_filter]
      refine ⟨?_, by rw [bne_iff_ne]; exact hpne⟩
      rw [hids]
      exact List.mem_append_right _
        (List.mem_cons_of_mem _ (List.mem_map_of_mem Tab.id (List.mem_cons_self p rest)))
    have hbtn3 := any_fst_beq_of_mem hpidmem
    rw [some_orElse']
    obtain ⟨s', hok, hacts', htabs', -⟩ :=
      switchTab_ok_shape
        { s with tabs := pre ++ p :: rest,
                 tabButtons := s.tabButtons.filter (fun b => b.1 != tid),
                 webviews := s.webviews.filter (fun v => v.1 != tid) }
        p.id hbtn3
    refine ⟨s', hok, ?_, ?_⟩
    · rw [htabs']
    · rw [hacts']
      rfl
  | nil =>
    have hprelen : 1 ≤ pre.length := by
      rw [hdecomp] at hlen
      simp at hlen
      omega
    have hpre_ne : pre ≠ [] := by
      intro h
      rw [h] at hprelen
      simp at hprelen
    have h1 : jsGetTab (pre ++ []) (pre.length : Int) = none := by
      unfold jsGetTab
      rw [if_neg (by omega), show ((pre.length : Int)).toNat = pre.length by omega,
        List.append_nil]
      exact List.get?_eq_none.mpr (le_refl _)
    obtain ⟨last, hlast⟩ : ∃ y, pre.get? (pre.length - 1) = some y := by
      rw [get?_length_sub_one pre hpre_ne]
      cases hg : pre.getLast? with
      | none => exact absurd (List.getLast?_eq_none_iff.mp hg) hpre_ne
      | some y => exact ⟨y, rfl⟩
    have hlast' : pre.getLast? = some last := by
      rw [← get?_length_sub_one pre hpre_ne]
      exact hlast
    have h2 : jsGetTab (pre ++ []) ((pre.length : Int) - 1) = some last := by
      unfold jsGetTab
      rw [if_neg (by omega), show ((pre.length : Int) - 1).toNat = pre.length - 1 by omega,
        List.append_nil]
      exact hlast
    rw [h1, h2]
    have hlne : last.id ≠ tid := by
      intro he
      have : last ∈ pre := List.get?_mem hlast
      exact hnpre (he ▸ List.mem_map_of_mem Tab.id this)
    have hlidmem : last.id ∈ (s.tabButtons.filter (fun b => b.1 != tid)).map Prod.fst := by
      rw [map_fst_filter_ne, hbtn, List.mem_filter]
      refine ⟨?_, by rw [bne_iff_ne]; exact hlne⟩
      rw [hids]
      exact List.mem_append_left _ (List.mem_map_of_mem Tab.id (List.get?_mem hlast))
    have hbtn3 := any_fst_beq_of_mem hlidmem
    rw [none_orElse']
    obtain ⟨s', hok, hacts', htabs', -⟩ :=
      switchTab_ok_shape
        { s with tabs := pre ++ [],
                 tabButtons := s.tabButtons.filter (fun b => b.1 != tid),
                 webviews := s.webviews.filter (fun v => v.1 != tid) }
        last.id hbtn3
    refine ⟨s', hok, ?_, ?_⟩
    · rw [htabs']
    · rw [hacts']
      simp [hlast']

/-! ## Address Formatter theorems -/

/-- Claim C6, counterexample: the multi-tab `formatUrl` tests `!input`
BEFORE trimming, so the whitespace-only input `" "` is not recognized as
empty — it trims to `""` inside the search branch and yields the search URL
with an empty query instead of the home address. -/
theorem formatUrl_whitespace_not_home :
    formatUrl (jstr " ") = Except.ok (jstr "https://www.google.com/search?q=") ∧
    jstr "https://www.google.com/search?q=" ≠ jstr "home.html" := by
  constructor
  · rfl
  · decide

/-- Claim C7, counterexample: `https://localhost` parses as an absolute
http(s) URL, but the multi-tab `formatUrl` routes every dot-free input to
the search branch, returning a Google query instead of the input. -/
theorem formatUrl_localhost_searched :
    formatUrl (jstr "https://localhost") =
      Except.ok (jstr "https://www.google.com/search?q=https%3A%2F%2Flocalhost") ∧
    jstr "https://www.google.com/search?q=https%3A%2F%2Flocalhost" ≠
      jstr "https://localhost" := by
  constructor
  · rfl
  · decide

/-- Claim C8, counterexample: on the malformed input consisting of the lone
lead surrogate U+D800, `formatUrl` reaches the search branch and
`encodeURIComponent` raises URIError — the Address Formatter is NOT total on
malformed strings. -/
theorem formatUrl_lone_surrogate_throws :
    formatUrl [0xD800] = Except.error () := by
  rfl

theorem dropWhile_eq_nil_of_all {p : Nat → Bool} {l : List Nat}
    (h : ∀ c ∈ l, p c = true) : l.dropWhile p = [] := by
  induction l with
  | nil => rfl
  | cons a l ih =>
    rw [List.dropWhile_cons, if_pos (h a (List.mem_cons_self a l))]
    exact ih (fun c hc => h c (List.mem_cons_of_mem a hc))

/-- Claim C6, amended: the most recent (multi-tab) variant returns the home
address `home.html` only for the EXACTLY empty input; a whitespace-only
input falls through to the search branch and yields the search URL with an
empty query.  The earlier (single-view) variant trims first and returns the
currently loaded address for both empty and whitespace-only input (whenever
a current address exists), for any behaviour of the URL-parser oracle. -/
theorem formatUrl_empty_whitespace_policy (ws : List Nat) (hne : ws ≠ [])
    (hws : ∀ c ∈ ws, isJsWhitespace c = true)
    (validUrl : List Nat → Bool) (src : List Nat) (hsrc : src ≠ []) :
    formatUrl [] = Except.ok (jstr "home.html") ∧
    formatUrl ws = Except.ok searchQueryBase ∧
    SingleView.formatUrl validUrl src [] = Except.ok src ∧
    SingleView.formatUrl validUrl src ws = Except.ok src := by
  have htrim : jsTrim ws = [] := by
    unfold jsTrim
    rw [dropWhile_eq_nil_of_all hws]
    rfl
  have hnee : ws.isEmpty = false := by
    cases ws
    · exact absurd rfl hne
    · rfl
  have hsrce : src.isEmpty = false := by
    cases src
    · exact absurd rfl hsrc
    · rfl
  refine ⟨rfl, ?_, ?_, ?_⟩
  · simp only [formatUrl, hnee, Bool.false_eq_true, if_false, htrim]
    rfl
  · simp only [SingleView.formatUrl, jsTrim, List.dropWhile_nil, trimEnd,
      List.isEmpty_nil, if_true, hsrce, Bool.false_eq_true, if_false]
  · simp only [SingleView.formatUrl, htrim, List.isEmpty_nil, if_true, hsrce,
      Bool.false_eq_true, if_false]

/-- Witness for `formatUrl_empty_whitespace_policy` at a single-space input
and a loaded single-view webview. -/
theorem formatUrl_empty_whitespace_policy_witness :
    (jstr " " ≠ [] ∧ (∀ c ∈ jstr " ", isJsWhitespace c = true) ∧
      jstr "https://x.y/" ≠ []) ∧
    (formatUrl [] = Except.ok (jstr "home.html") ∧
      formatUrl (jstr " ") = Except.ok searchQueryBase ∧
      SingleView.formatUrl (fun _ => false) (jstr "https://x.y/") [] =
        Except.ok (jstr "https://x.y/") ∧
      SingleView.formatUrl (fun _ => false) (jstr "https://x.y/") (jstr " ") =
        Except.ok (jstr "https://x.y/")) :=
  ⟨⟨by decide, by decide, by decide⟩,
    formatUrl_empty_whitespace_policy (jstr " ") (by decide) (by decide)
      (fun _ => false) (jstr "https://x.y/") (by decide)⟩

/-- Claim C7, amended: the multi-tab `formatUrl` returns its (trimmed) input
unchanged exactly on the inputs that both carry an http(s) scheme AND
survive the dot/space gate: a trimmed input starting with `http://` or
`https://` (case-insensitively) that contains a `.` and no space.  Absolute
http(s) URLs without a dot (e.g. `https://localhost`) are instead sent to
the search engine. -/
theorem formatUrl_http_with_dot_unchanged (input : List Nat) (hne : input ≠ [])
    (htrim : jsTrim input = input) (hdot : input.contains 46 = true)
    (hsp : input.contains 32 = false) (hhttp : startsWithHttp input = true) :
    formatUrl input = Except.ok input := by
  have hnee : input.isEmpty = false := by
    cases input
    · exact absurd rfl hne
    · rfl
  simp only [formatUrl, hnee, Bool.false_eq_true, if_false, htrim, hdot, hsp,
    hhttp, Bool.not_true, Bool.or_false, Bool.false_eq_true, if_false]

/-- Witness for `formatUrl_http_with_dot_unchanged` at `https://a.b`. -/
theorem formatUrl_http_with_dot_unchanged_witness :
    (jstr "https://a.b" ≠ [] ∧ jsTrim (jstr "https://a.b") = jstr "https://a.b" ∧
      (jstr "https://a.b").contains 46 = true ∧
      (jstr "https://a.b").contains 32 = false ∧
      startsWithHttp (jstr "https://a.b") = true) ∧
    formatUrl (jstr "https://a.b") = Except.ok (jstr "https://a.b") :=
  ⟨⟨by decide, by decide, by decide, by decide, by decide⟩,
    formatUrl_http_with_dot_unchanged (jstr "https://a.b") (by decide) (by decide)
      (by decide) (by decide) (by decide)⟩

def exTabC : Tab := { id := "tab-3", url := "home.html", title := "New Tab", isLoading := true }

/-- Three tabs `[A, B, C]` with `B` active, as in the spec's worked example. -/
def exS3 : BrowserState :=
  { tabs := [exTabA, exTabB, exTabC], activeTabId := some "tab-2",
    isSplitView := false, splitTabId := none,
    tabButtons := [("tab-1", false), ("tab-2", true), ("tab-3", false)],
    webviews := [("tab-1", wvHome), ("tab-2", wvHome), ("tab-3", wvHome)],
    urlInputValue := "home.html", urlInputFocused := false,
    loadingBarLoading := false, loadingBarComplete := false,
    btnBackDisabled := false, btnForwardDisabled := false }

/-- Witness for `closeTab_active_selects_neighbor`: tabs `[A,B,C]`, `B`
active, closing `B` activates `C` (the tab now at `B`'s former index). -/
theorem closeTab_active_selects_neighbor_witness :
    (WF exS3 ∧ exS3.tabs = [exTabA] ++ exTabB :: [exTabC] ∧ exTabB.id = "tab-2" ∧
      exS3.activeTabId = some "tab-2" ∧ 2 ≤ exS3.tabs.length) ∧
    ∃ s', closeTab exS3 "tab-2" = Except.ok s' ∧
      s'.tabs = [exTabA] ++ [exTabC] ∧
      s'.activeTabId =
        (([exTabC] : List Tab).head?.orElse
          (fun _ => ([exTabA] : List Tab).getLast?)).map Tab.id :=
  ⟨⟨by decide, rfl, rfl, rfl, by decide⟩,
    closeTab_active_selects_neighbor exS3 "tab-2" [exTabA] [exTabC] exTabB
      (by decide) rfl rfl rfl (by decide)⟩

/-! ## Totality of `encodeURIComponent` on well-formed UTF-16 -/

theorem isUriUnescaped_lt {c : Nat} (h : isUriUnescaped c = true) : c < 128 := by
  simp only [isUriUnescaped, Bool.or_eq_true, Bool.and_eq_true,
    decide_eq_true_eq, beq_iff_eq] at h
  omega

theorem isTrail_false_of_lt {c : Nat} (h : c < 0xD800) : isTrailSurrogate c = false := by
  simp only [isTrailSurrogate, Bool.eq_false_iff, ne_eq, Bool.and_eq_true,
    decide_eq_true_eq, not_and]
  omega

theorem isLead_false_of_lt {c : Nat} (h : c < 0xD800) : isLeadSurrogate c = false := by
  simp only [isLeadSurrogate, Bool.eq_false_iff, ne_eq, Bool.and_eq_true,
    decide_eq_true_eq, not_and]
  omega

theorem not_surrogate_of_ws {c : Nat} (h : isJsWhitespace c = true) :
    isTrailSurrogate c = false ∧ isLeadSurrogate c = false := by
  simp only [isJsWhitespace, Bool.or_eq_true, Bool.and_eq_true,
    decide_eq_true_eq, beq_iff_eq] at h
  constructor
  · simp only [isTrailSurrogate, Bool.eq_false_iff, ne_eq, Bool.and_eq_true,
      decide_eq_true_eq, not_and]
    omega
  · simp only [isLeadSurrogate, Bool.eq_false_iff, ne_eq, Bool.and_eq_true,
      decide_eq_true_eq, not_and]
    omega

theorem wf_cons_of_not_surrogate {c : Nat} (rest : List Nat)
    (ht : isTrailSurrogate c = false) (hl : isLeadSurrogate c = false) :
    wellFormedUtf16 (c :: rest) = wellFormedUtf16 rest := by
  cases rest with
  | nil => simp [wellFormedUtf16, ht, hl]
  | cons c2 rest2 => simp [wellFormedUtf16, ht, hl]

set_option maxHeartbeats 1600000 in
theorem encodeURIComponent_total :
    ∀ (n : Nat) (l : List Nat), l.length ≤ n → wellFormedUtf16 l = true →
      ∃ e, encodeURIComponent l = Except.ok e := by
  intro n
  induction n with
  | zero =>
    intro l hl _
    have hnil : l = [] := List.length_eq_zero.mp (Nat.le_zero.mp hl)
    subst hnil
    exact ⟨[], rfl⟩
  | succ n ih =>
    intro l hl hwf
    cases l with
    | nil => exact ⟨[], rfl⟩
    | cons c rest =>
      simp only [List.length_cons] at hl
      by_cases hu : isUriUnescaped c = true
      · have hlt := isUriUnescaped_lt hu
        have ht : isTrailSurrogate c = false := isTrail_false_of_lt (by omega)
        have hld : isLeadSurrogate c = false := isLead_false_of_lt (by omega)
        have hwfr : wellFormedUtf16 rest = true := by
          rwa [wf_cons_of_not_surrogate rest ht hld] at hwf
        obtain ⟨e, he⟩ := ih rest (by omega) hwfr
        refine ⟨c :: e, ?_⟩
        cases rest with
        | nil =>
          have he' : e = [] := by
            simp only [encodeURIComponent] at he
            exact (Except.ok.inj he).symm
          subst he'
          simp only [encodeURIComponent]
          rw [if_pos hu]
        | cons c2 rest2 =>
          simp only [encodeURIComponent]
          rw [if_pos hu, he]
      · by_cases hld : isLeadSurrogate c = true
        · have ht : isTrailSurrogate c = false := by
            simp only [isLeadSurrogate, Bool.and_eq_true, decide_eq_true_eq] at hld
            simp only [isTrailSurrogate, Bool.eq_false_iff, ne_eq,
              Bool.and_eq_true, decide_eq_true_eq, not_and]
            omega
          have hnott : ¬(isTrailSurrogate c = true) := by
            rw [ht]
            simp
          have hnotl : ¬(!(isLeadSurrogate c)) = true := by
            rw [hld]
            simp
          cases rest with
          | nil =>
            simp only [wellFormedUtf16] at hwf
            rw [if_neg hnott, if_neg hnotl] at hwf
            exact absurd hwf (by simp)
          | cons c2 rest2 =>
            have hwf' : (isTrailSurrogate c2 && wellFormedUtf16 rest2) = true := by
              simp only [wellFormedUtf16] at hwf
              rw [if_neg hnott, if_neg hnotl] at hwf
              exact hwf
            rw [Bool.and_eq_true] at hwf'
            obtain ⟨ht2, hwf2⟩ := hwf'
            simp only [List.length_cons] at hl
            obtain ⟨e, he⟩ := ih rest2 (by omega) hwf2
            refine ⟨escapeScalar (0x10000 + (c - 0xD800) * 0x400 + (c2 - 0xDC00)) ++ e, ?_⟩
            simp only [encodeURIComponent]
            rw [if_neg hu, if_neg hnott, if_neg hnotl, if_pos ht2, he]
        · have hld' : isLeadSurrogate c = false := by
            revert hld
            cases isLeadSurrogate c <;> simp
          have ht : isTrailSurrogate c = false := by
            by_contra hc
            rw [Bool.not_eq_false] at hc
            cases rest with
            | nil =>
              simp only [wellFormedUtf16] at hwf
              rw [if_pos hc] at hwf
              exact absurd hwf (by simp)
            | cons c2 rest2 =>
              simp only [wellFormedUtf16] at hwf
              rw [if_pos hc] at hwf
              exact absurd hwf (by simp)
          have hnott : ¬(isTrailSurrogate c = true) := by
            rw [ht]
            simp
          have hposl : (!(isLeadSurrogate c)) = true := by
            rw [hld']
            simp
          have hwfr : wellFormedUtf16 rest = true := by
            rwa [wf_cons_of_not_surrogate rest ht hld'] at hwf
          obtain ⟨e, he⟩ := ih rest (by omega) hwfr
          refine ⟨escapeScalar c ++ e, ?_⟩
          cases rest with
          | nil =>
            have he' : e = [] := by
              simp only [encodeURIComponent] at he
              exact (Except.ok.inj he).symm
            subst he'
            simp only [encodeURIComponent]
            rw [if_neg hu, if_neg hnott, if_pos hposl]
          | cons c2 rest2 =>
            simp only [encodeURIComponent]
            rw [if_neg hu, if_neg hnott, if_pos hposl, he]

theorem wellFormed_dropWhile {l : List Nat} (h : wellFormedUtf16 l = true) :
    wellFormedUtf16 (l.dropWhile isJsWhitespace) = true := by
  induction l with
  | nil => exact h
  | cons c rest ih =>
    rw [List.dropWhile_cons]
    by_cases hc : isJsWhitespace c = true
    · rw [if_pos hc]
      obtain ⟨ht, hl⟩ := not_surrogate_of_ws hc
      exact ih (by rwa [wf_cons_of_not_surrogate rest ht hl] at h)
    · rw [if_neg hc]
      exact h

theorem wellFormed_trimEnd :
    ∀ (n : Nat) (l : List Nat), l.length ≤ n → wellFormedUtf16 l = true →
      wellFormedUtf16 (trimEnd l) = true := by
  intro n
  induction n with
  | zero =>
    intro l hl h
    have hnil : l = [] := List.length_eq_zero.mp (Nat.le_zero.mp hl)
    subst hnil
    exact h
  | succ n ih =>
    intro l hl h
    cases l with
    | nil => exact h
    | cons c rest =>
      simp only [List.length_cons] at hl
      by_cases htr : isTrailSurrogate c = true
      · cases rest with
        | nil =>
          simp only [wellFormedUtf16] at h
          rw [if_pos htr] at h
          exact absurd h (by simp)
        | cons c2 rest2 =>
          simp only [wellFormedUtf16] at h
          rw [if_pos htr] at h
          exact absurd h (by simp)
      · have htr' : isTrailSurrogate c = false := by
          revert htr
          cases isTrailSurrogate c <;> simp
        have hnott : ¬(isTrailSurrogate c = true) := by
          rw [htr']
          simp
        by_cases hld : isLeadSurrogate c = true
        · have hnotl : ¬((!(isLeadSurrogate c)) = true) := by
            rw [hld]
            simp
          cases rest with
          | nil =>
            simp only [wellFormedUtf16] at h
            rw [if_neg hnott, if_neg hnotl] at h
            exact absurd h (by simp)
          | cons c2 rest2 =>
            have hpair : (isTrailSurrogate c2 && wellFormedUtf16 rest2) = true := by
              simp only [wellFormedUtf16] at h
              rw [if_neg hnott, if_neg hnotl] at h
              exact h
            rw [Bool.and_eq_true] at hpair
            obtain ⟨ht2, hwf2⟩ := hpair
            simp only [List.length_cons] at hl
            have hr2 := ih rest2 (by omega) hwf2
            have hc2ws : isJsWhitespace c2 = false := by
              simp only [isTrailSurrogate, Bool.and_eq_true, decide_eq_true_eq] at ht2
              simp only [isJsWhitespace, Bool.eq_false_iff, ne_eq, Bool.or_eq_true,
                Bool.and_eq_true, decide_eq_true_eq, beq_iff_eq, not_or]
              omega
            have he1 : trimEnd (c2 :: rest2) = c2 :: trimEnd rest2 := by
              rw [show trimEnd (c2 :: rest2) =
                (if (trimEnd rest2).isEmpty && isJsWhitespace c2 then []
                 else c2 :: trimEnd rest2) from rfl]
              rw [if_neg (by rw [hc2ws]; simp)]
            have he0 : trimEnd (c :: c2 :: rest2) = c :: c2 :: trimEnd rest2 := by
              rw [show trimEnd (c :: c2 :: rest2) =
                (if (trimEnd (c2 :: rest2)).isEmpty && isJsWhitespace c then []
                 else c :: trimEnd (c2 :: rest2)) from rfl]
              rw [he1, if_neg (by simp)]
            rw [he0]
            simp only [wellFormedUtf16]
            rw [if_neg hnott, if_neg hnotl, ht2, hr2]
            simp
        · have hld' : isLeadSurrogate c = false := by
            revert hld
            cases isLeadSurrogate c <;> simp
          have hwfr : wellFormedUtf16 rest = true := by
            rwa [wf_cons_of_not_surrogate rest htr' hld'] at h
          have hr := ih rest (by omega) hwfr
          by_cases hcond : ((trimEnd rest).isEmpty && isJsWhitespace c) = true
          · have hz : trimEnd (c :: rest) = [] := by
              rw [show trimEnd (c :: rest) =
                (if (trimEnd rest).isEmpty && isJsWhitespace c then []
                 else c :: trimEnd rest) from rfl]
              rw [if_pos hcond]
            rw [hz]
            rfl
          · have hz : trimEnd (c :: rest) = c :: trimEnd rest := by
              rw [show trimEnd (c :: rest) =
                (if (trimEnd rest).isEmpty && isJsWhitespace c then []
                 else c :: trimEnd rest) from rfl]
              rw [if_neg hcond]
            rw [hz, wf_cons_of_not_surrogate _ htr' hld']
            exact hr

theorem wellFormed_jsTrim {l : List Nat} (h : wellFormedUtf16 l = true) :
    wellFormedUtf16 (jsTrim l) = true := by
  unfold jsTrim
  exact wellFormed_trimEnd _ _ (le_refl _) (wellFormed_dropWhile h)

/-- Claim C8, amended: the Address Formatter never throws on any WELL-FORMED
input string (no lone surrogates), and every input that is not recognized as
a URL or bare domain — i.e. whose trimmed form contains a space or no dot —
resolves to the fixed search-engine query URL carrying the URL-encoded
input.  (Totality fails only on malformed strings with lone surrogates,
where `encodeURIComponent` raises URIError.) -/
theorem formatUrl_total_wellformed (input : List Nat)
    (hwf : wellFormedUtf16 input = true) :
    (∃ out, formatUrl input = Except.ok out) ∧
    (input.isEmpty = false →
      ((jsTrim input).contains 32 || !((jsTrim input).contains 46)) = true →
      ∃ e, encodeURIComponent (jsTrim input) = Except.ok e ∧
        formatUrl input = Except.ok (searchQueryBase ++ e)) := by
  have hwft : wellFormedUtf16 (jsTrim input) = true := wellFormed_jsTrim hwf
  obtain ⟨e, he⟩ :=
    encodeURIComponent_total (jsTrim input).length _ (le_refl _) hwft
  constructor
  · by_cases hne : input.isEmpty = true
    · refine ⟨jstr "home.html", ?_⟩
      simp only [formatUrl]
      rw [if_pos hne]
    · have hne' : input.isEmpty = false := by
        revert hne
        cases input.isEmpty <;> simp
      by_cases hcond : ((jsTrim input).contains 32 || !((jsTrim input).contains 46)) = true
      · refine ⟨searchQueryBase ++ e, ?_⟩
        simp only [formatUrl]
        rw [if_neg (by rw [hne']; simp), if_pos hcond, he]
      · by_cases hhttp : startsWithHttp (jsTrim input) = true
        · refine ⟨jsTrim input, ?_⟩
          simp only [formatUrl]
          rw [if_neg (by rw [hne']; simp), if_neg hcond,
            if_neg (by rw [hhttp]; simp)]
        · have hhttp' : startsWithHttp (jsTrim input) = false := by
            revert hhttp
            cases startsWithHttp (jsTrim input) <;> simp
          refine ⟨jstr "https://" ++ jsTrim input, ?_⟩
          simp only [formatUrl]
          rw [if_neg (by rw [hne']; simp), if_neg hcond,
            if_pos (by rw [hhttp']; simp)]
  · intro hne hcond
    refine ⟨e, he, ?_⟩
    simp only [formatUrl]
    rw [if_neg (by rw [hne]; simp), if_pos hcond, he]

/-- Witness for `formatUrl_total_wellformed` at the search-term input
`zyra browser` (well-formed, contains a space, no dot). -/
theorem formatUrl_total_wellformed_witness :
    wellFormedUtf16 (jstr "zyra browser") = true ∧
    (∃ e, encodeURIComponent (jsTrim (jstr "zyra browser")) = Except.ok e ∧
      formatUrl (jstr "zyra browser") = Except.ok (searchQueryBase ++ e)) :=
  ⟨by decide,
    (formatUrl_total_wellformed (jstr "zyra browser") (by decide)).2
      (by decide) (by decide)⟩
